import Mathlib

/-!
Verification of the Unbrowse skill-registry marketplace program
(`src/solana-programs/skill-registry/programs/skill-registry/src/lib.rs`).

The program is embedded shallowly: each Anchor instruction handler becomes a
pure Lean function over an explicit `SysState` (the collection of on-chain
accounts), returning `Except TxErr`.  Machine integers (`u64`, `u128`, `u8`,
`u16`) are modelled as `Nat` with explicit `% 2 ^ w` at the points where the
Rust code performs a truncating `as` cast or release-mode wrapping arithmetic;
`checked_add` / `checked_sub` / `checked_mul` / `checked_div` become
`Option`-returning functions, and `.unwrap()` on `None` becomes the distinct
failure outcome `TxErr.panicked` (a Rust panic aborts the whole transaction).
Anchor account resolution (PDA lookup, `init` collision, declared
`constraint`s) is modelled in the declared account order, before the handler
body, exactly as Anchor generates it.  Pubkeys are modelled as `Nat`; PDA
derivation is modelled by keying each account map directly on the seeds that
derive the address (`agents` by owner key, `skills` by `skill_id`, `purchases`
by `(buyer, skill_id)`).  The inert PDA `bump` bookkeeping byte stored in each
account is not modelled (it is written once and never read by any handler
logic).  SPL-token transfers are emitted as a `List Transfer` on success; a
failed transition commits nothing (Solana reverts every account write of a
failed transaction), which the `Except` result models by carrying no state in
the `error` case.
-/

namespace SkillRegistry

/-- Modulus of the `u64` machine-integer type. -/
def u64Mod : Nat := 2 ^ 64

/-- Rust `u64::checked_add`. -/
def checkedAdd64 (a b : Nat) : Option Nat :=
  if a + b < u64Mod then some (a + b) else none

/-- Rust `u64::checked_sub`. -/
def checkedSub64 (a b : Nat) : Option Nat :=
  if b ≤ a then some (a - b) else none

/-- Rust `u128::checked_mul` (operands are `u64`/`u16` widened, so each is
below `2 ^ 64`; the check is on the 128-bit product). -/
def checkedMul128 (a b : Nat) : Option Nat :=
  if a * b < 2 ^ 128 then some (a * b) else none

/-- Rust `u128::checked_div`: `none` exactly when the divisor is zero. -/
def checkedDiv128 (a b : Nat) : Option Nat :=
  if b = 0 then none else some (a / b)

/-- Association-list lookup, keying each account map by its PDA seeds. -/
def lookupA {V : Type} {K : Type} [DecidableEq K] : List (K × V) → K → Option V
  | [], _ => none
  | (k', v) :: t, k => if k' = k then some v else lookupA t k

/-- Overwrite the value stored at an existing key (an Anchor `mut` account
write-back); keys not equal to `k` are untouched. -/
def setA {V : Type} {K : Type} [DecidableEq K] (l : List (K × V)) (k : K) (v : V) :
    List (K × V) :=
  l.map (fun p => if p.1 = k then (k, v) else p)

/-- `AuthType` enum of the source (auth method required by a skill). -/
inductive AuthType where
  | None
  | Bearer
  | Cookie
  | ApiKey
  | OAuth
  | Custom
deriving DecidableEq, Repr

/-- `ErrorCode` enum of the source, lines 487-509.  Note that the program
defines no overflow-related variant: every `checked_*` arithmetic failure is
surfaced by `.unwrap()` as a panic, not as a program error code. -/
inductive ErrorCode where
  | FeeTooHigh
  | NameTooLong
  | UriTooLong
  | SkillIdTooLong
  | DescriptionTooLong
  | PriceMustBePositive
  | SkillNotActive
  | InvalidRating
  | AlreadyRated
  | Unauthorized
deriving DecidableEq, Repr

/-- Failure outcomes of a transaction: a program `ErrorCode` raised by
`require!` or an account `constraint`; the system program rejecting an `init`
on an already-occupied address; a missing (never-initialized) account; or a
Rust panic (`.unwrap()` on `None`), which aborts the transaction. -/
inductive TxErr where
  | code (e : ErrorCode)
  | missingAccount
  | accountAlreadyInUse
  | panicked
deriving DecidableEq, Repr

/-- `Marketplace` account (source lines 243-252; `bump` omitted). -/
structure Marketplace where
  authority : Nat
  fee_bps : Nat
  total_skills : Nat
  total_purchases : Nat
  total_volume_usdc : Nat
deriving DecidableEq, Repr

/-- `Agent` account (source lines 254-269; `bump` omitted). -/
structure Agent where
  owner : Nat
  name : String
  metadata_uri : String
  skills_published : Nat
  skills_sold : Nat
  total_earnings : Nat
  reputation_score : Nat
  total_ratings : Nat
  created_at : Int
deriving DecidableEq, Repr

/-- `Skill` account (source lines 271-295; `bump` omitted).  The `agent`
field stores the publisher's agent-PDA, which in this embedding is keyed by
the publisher's own key. -/
structure Skill where
  publisher : Nat
  agent : Nat
  skill_id : String
  name : String
  description : String
  endpoint_count : Nat
  auth_type : AuthType
  price_usdc : Nat
  metadata_uri : String
  total_purchases : Nat
  total_revenue : Nat
  avg_rating : Nat
  total_ratings : Nat
  is_active : Bool
  created_at : Int
  updated_at : Int
deriving DecidableEq, Repr

/-- `Purchase` account (source lines 297-307; `bump` omitted).  The `skill`
back-reference stores the skill's key (`skill_id` in this embedding). -/
structure Purchase where
  buyer : Nat
  skill : String
  price_paid : Nat
  fee_paid : Nat
  purchased_at : Int
  rating : Nat
deriving DecidableEq, Repr

/-- One SPL-token transfer instruction invoked by `purchase_skill`
(source lines 119-156). -/
structure Transfer where
  source : Nat
  destination : Nat
  authority : Nat
  amount : Nat
deriving DecidableEq, Repr

/-- The collection of program accounts, each map keyed by the PDA seeds that
derive the account's address. -/
structure SysState where
  marketplace : Option Marketplace
  agents : List (Nat × Agent)
  skills : List (String × Skill)
  purchases : List ((Nat × String) × Purchase)
deriving DecidableEq, Repr

/-- The state before any transition: no account exists. -/
def SysState.empty : SysState := ⟨none, [], [], []⟩

/-- `initialize_marketplace` handler (source lines 13-29) together with its
`InitializeMarketplace` account resolution (lines 327-342): the `init` on the
fixed `marketplace` PDA fails if the singleton already exists; the handler
then requires `fee_bps <= 5000` and creates the record with zeroed counters
and `authority` set to the caller. -/
def initMarketplace (authority : Nat) (fee_bps : Nat) (s : SysState) :
    Except TxErr SysState :=
  match s.marketplace with
  | some _ => .error .accountAlreadyInUse
  | none =>
    if fee_bps ≤ 5000 then
      let m : Marketplace :=
        { authority := authority, fee_bps := fee_bps, total_skills := 0,
          total_purchases := 0, total_volume_usdc := 0 }
      .ok { s with marketplace := some m }
    else .error (.code .FeeTooHigh)

/-- `register_agent` handler (source lines 32-54) with its `RegisterAgent`
account resolution (lines 344-360): `init` on the caller-keyed agent PDA
fails on re-registration; the handler checks the two length bounds and
creates the record with zeroed counters. -/
def register_agent (owner : Nat) (name metadata_uri : String) (now : Int)
    (s : SysState) : Except TxErr SysState :=
  match lookupA s.agents owner with
  | some _ => .error .accountAlreadyInUse
  | none =>
    if name.length ≤ 32 then
      if metadata_uri.length ≤ 200 then
        let a : Agent :=
          { owner := owner, name := name, metadata_uri := metadata_uri,
            skills_published := 0, skills_sold := 0, total_earnings := 0,
            reputation_score := 0, total_ratings := 0, created_at := now }
        .ok { s with agents := (owner, a) :: s.agents }
      else .error (.code .UriTooLong)
    else .error (.code .NameTooLong)

/-- `register_skill` handler (source lines 57-102) with its `RegisterSkill`
account resolution (lines 362-393), in declared account order: the
publisher's agent PDA must exist and satisfy `agent.owner == publisher`
(`Unauthorized` otherwise), the marketplace must exist, and `init` on the
`skill_id`-keyed skill PDA fails if the id is taken.  The handler checks the
bounds and price positivity, creates the skill (`is_active = true`, zeroed
stats), and increments `agent.skills_published` and
`marketplace.total_skills` with `checked_add(1).unwrap()`. -/
def register_skill (publisher : Nat) (skill_id name description : String)
    (endpoint_count : Nat) (auth_type : AuthType) (price_usdc : Nat)
    (metadata_uri : String) (now : Int) (s : SysState) : Except TxErr SysState :=
  match lookupA s.agents publisher with
  | none => .error .missingAccount
  | some agent =>
    if agent.owner = publisher then
      match s.marketplace with
      | none => .error .missingAccount
      | some marketplace =>
        match lookupA s.skills skill_id with
        | some _ => .error .accountAlreadyInUse
        | none =>
          if skill_id.length ≤ 64 then
            if name.length ≤ 64 then
              if description.length ≤ 256 then
                if metadata_uri.length ≤ 200 then
                  if 0 < price_usdc then
                    match checkedAdd64 agent.skills_published 1 with
                    | none => .error .panicked
                    | some sp =>
                      match checkedAdd64 marketplace.total_skills 1 with
                      | none => .error .panicked
                      | some ts =>
                        let sk : Skill :=
                          { publisher := publisher, agent := publisher,
                            skill_id := skill_id, name := name,
                            description := description,
                            endpoint_count := endpoint_count,
                            auth_type := auth_type, price_usdc := price_usdc,
                            metadata_uri := metadata_uri,
                            total_purchases := 0, total_revenue := 0,
                            avg_rating := 0, total_ratings := 0,
                            is_active := true, created_at := now,
                            updated_at := now }
                        let agent' := { agent with skills_published := sp }
                        let marketplace' := { marketplace with total_skills := ts }
                        .ok { s with
                          skills := (skill_id, sk) :: s.skills,
                          agents := setA s.agents publisher agent',
                          marketplace := some marketplace' }
                  else .error (.code .PriceMustBePositive)
                else .error (.code .UriTooLong)
              else .error (.code .DescriptionTooLong)
            else .error (.code .NameTooLong)
          else .error (.code .SkillIdTooLong)
    else .error (.code .Unauthorized)

/-- The fee split of `purchase_skill`, source lines 109-116:
`fee = ((price as u128).checked_mul(fee_bps).unwrap().checked_div(10_000).unwrap()) as u64`
(the `as u64` cast truncates mod `2 ^ 64`), and
`seller_amount = price.checked_sub(fee).unwrap()`.  `none` means one of the
three `.unwrap()` calls panicked. -/
def purchaseFeeSplit (price fee_bps : Nat) : Option (Nat × Nat) :=
  match checkedMul128 price fee_bps with
  | none => none
  | some p =>
    match checkedDiv128 p 10000 with
    | none => none
    | some q =>
      let fee := q % u64Mod
      match checkedSub64 price fee with
      | none => none
      | some seller_amount => some (fee, seller_amount)

/-- `purchase_skill` handler (source lines 105-189) with its `PurchaseSkill`
account resolution (lines 395-447), in declared account order: marketplace,
skill (with the `skill.is_active` constraint raising `SkillNotActive`),
seller agent keyed by `skill.publisher`, and `init` of the
`(buyer, skill)`-keyed purchase PDA, which fails if the pair already bought.
The handler re-checks `is_active`, splits the fee, invokes the transfer to
the seller and (when `fee > 0`) the fee transfer to the treasury, records the
purchase with `rating = 0`, and performs the six
`checked_add(..).unwrap()` counter increments.  On success the invoked
transfers are returned alongside the new state; on any failure nothing is
committed. -/
def purchase_skill (buyer : Nat) (skill_id : String)
    (buyer_token_account seller_token_account treasury_token_account : Nat)
    (now : Int) (s : SysState) : Except TxErr (SysState × List Transfer) :=
  match s.marketplace with
  | none => .error .missingAccount
  | some marketplace =>
    match lookupA s.skills skill_id with
    | none => .error .missingAccount
    | some skill =>
      if skill.is_active then
        match lookupA s.agents skill.publisher with
        | none => .error .missingAccount
        | some seller_agent =>
          match lookupA s.purchases (buyer, skill_id) with
          | some _ => .error .accountAlreadyInUse
          | none =>
            if skill.is_active then
              let price := skill.price_usdc
              match purchaseFeeSplit price marketplace.fee_bps with
              | none => .error .panicked
              | some (fee, seller_amount) =>
                let transfers : List Transfer :=
                  { source := buyer_token_account,
                    destination := seller_token_account,
                    authority := buyer, amount := seller_amount } ::
                  (if 0 < fee then
                    [{ source := buyer_token_account,
                       destination := treasury_token_account,
                       authority := buyer, amount := fee }]
                   else [])
                let purchase : Purchase :=
                  { buyer := buyer, skill := skill_id, price_paid := price,
                    fee_paid := fee, purchased_at := now, rating := 0 }
                match checkedAdd64 skill.total_purchases 1 with
                | none => .error .panicked
                | some stp =>
                  match checkedAdd64 skill.total_revenue price with
                  | none => .error .panicked
                  | some str =>
                    match checkedAdd64 seller_agent.skills_sold 1 with
                    | none => .error .panicked
                    | some sss =>
                      match checkedAdd64 seller_agent.total_earnings seller_amount with
                      | none => .error .panicked
                      | some ste =>
                        match checkedAdd64 marketplace.total_purchases 1 with
                        | none => .error .panicked
                        | some mtp =>
                          match checkedAdd64 marketplace.total_volume_usdc price with
                          | none => .error .panicked
                          | some mtv =>
                            let marketplace' := { marketplace with
                              total_purchases := mtp, total_volume_usdc := mtv }
                            let skill' := { skill with
                              total_purchases := stp, total_revenue := str }
                            let seller_agent' := { seller_agent with
                              skills_sold := sss, total_earnings := ste }
                            .ok ({ s with
                              marketplace := some marketplace',
                              skills := setA s.skills skill_id skill',
                              agents := setA s.agents skill.publisher seller_agent',
                              purchases := ((buyer, skill_id), purchase)
                                :: s.purchases }, transfers)
            else .error (.code .SkillNotActive)
      else .error (.code .SkillNotActive)

/-- `rate_skill` handler (source lines 192-214) with its `RateSkill` account
resolution (lines 449-470): the `(buyer, skill)`-keyed purchase PDA must
exist with `purchase.buyer == buyer` (`Unauthorized` otherwise), then the
skill and the seller agent are loaded.  The handler requires the rating in
1..=5 and `purchase.rating == 0` (`AlreadyRated` otherwise), writes the
rating, and folds it into both running averages:
`total = avg as u64 * count + rating` uses release-mode (wrapping) `u64`
arithmetic, `count` is bumped with `checked_add(1).unwrap()`, and the new
average `(total / count) as u8` truncates mod `2 ^ 8`. -/
def rate_skill (buyer : Nat) (skill_id : String) (rating : Nat) (s : SysState) :
    Except TxErr SysState :=
  match lookupA s.purchases (buyer, skill_id) with
  | none => .error .missingAccount
  | some purchase =>
    if purchase.buyer = buyer then
      match lookupA s.skills skill_id with
      | none => .error .missingAccount
      | some skill =>
        match lookupA s.agents skill.publisher with
        | none => .error .missingAccount
        | some agent =>
          if 1 ≤ rating ∧ rating ≤ 5 then
            if purchase.rating = 0 then
              let total := (skill.avg_rating * skill.total_ratings + rating) % u64Mod
              match checkedAdd64 skill.total_ratings 1 with
              | none => .error .panicked
              | some str =>
                let agent_total :=
                  (agent.reputation_score * agent.total_ratings + rating) % u64Mod
                match checkedAdd64 agent.total_ratings 1 with
                | none => .error .panicked
                | some atr =>
                  let purchase' := { purchase with rating := rating }
                  let skill' := { skill with
                                  total_ratings := str,
                                  avg_rating := total / str % 256 }
                  let agent' := { agent with
                                  total_ratings := atr,
                                  reputation_score := agent_total / atr % 256 }
                  .ok { s with
                    purchases := setA s.purchases (buyer, skill_id) purchase',
                    skills := setA s.skills skill_id skill',
                    agents := setA s.agents skill.publisher agent' }
            else .error (.code .AlreadyRated)
          else .error (.code .InvalidRating)
    else .error (.code .Unauthorized)

/-- `update_skill_price` handler (source lines 217-226) with its
`UpdateSkill` account resolution (lines 472-481): the skill must exist and
satisfy `skill.publisher == publisher` (`Unauthorized` otherwise); the
handler requires `new_price > 0` and sets `price_usdc` and `updated_at`. -/
def update_skill_price (publisher : Nat) (skill_id : String) (new_price : Nat)
    (now : Int) (s : SysState) : Except TxErr SysState :=
  match lookupA s.skills skill_id with
  | none => .error .missingAccount
  | some skill =>
    if skill.publisher = publisher then
      if 0 < new_price then
        let skill' := { skill with price_usdc := new_price, updated_at := now }
        .ok { s with skills := setA s.skills skill_id skill' }
      else .error (.code .PriceMustBePositive)
    else .error (.code .Unauthorized)

/-- `deactivate_skill` handler (source lines 229-236) with the same
`UpdateSkill` account resolution: the skill must exist and satisfy
`skill.publisher == publisher`; the handler unconditionally sets
`is_active = false` and refreshes `updated_at`. -/
def deactivate_skill (publisher : Nat) (skill_id : String) (now : Int)
    (s : SysState) : Except TxErr SysState :=
  match lookupA s.skills skill_id with
  | none => .error .missingAccount
  | some skill =>
    if skill.publisher = publisher then
      let skill' := { skill with is_active := false, updated_at := now }
      .ok { s with skills := setA s.skills skill_id skill' }
    else .error (.code .Unauthorized)

/-- The exact integer fee of the purchase-fee split before the `as u64`
cast: `floor(price * fee_bps / 10000)`. -/
def feeFormula (price fee_bps : Nat) : Nat := price * fee_bps / 10000

/-- Modelled from the spec: the RatingAggregator recurrence of section 4.6,
`new_total = old_avg * old_count + rating; new_count = old_count + 1;
new_avg = floor(new_total / new_count)`, returned as `(new_avg, new_count)`.
Stated from the spec's words so the code's update can be compared with it. -/
def ratingStep (old_avg old_count rating : Nat) : Nat × Nat :=
  ((old_avg * old_count + rating) / (old_count + 1), old_count + 1)

/-- The sale counters of a skill: `(total_purchases, total_revenue)`. -/
def skillSaleStats (sk : Skill) : Nat × Nat := (sk.total_purchases, sk.total_revenue)

/-- The sale counters of an agent: `(skills_sold, total_earnings)`. -/
def agentSaleStats (a : Agent) : Nat × Nat := (a.skills_sold, a.total_earnings)

/-- The sale counters of the marketplace: `(total_purchases, total_volume_usdc)`. -/
def mktSaleStats (m : Marketplace) : Nat × Nat := (m.total_purchases, m.total_volume_usdc)

/-- The amounts recorded on a purchase: `(price_paid, fee_paid)`. -/
def purchasePaid (p : Purchase) : Nat × Nat := (p.price_paid, p.fee_paid)

/-- The rating state of a skill: `(avg_rating, total_ratings)`. -/
def skillRatingStats (sk : Skill) : Nat × Nat := (sk.avg_rating, sk.total_ratings)

/-- The reputation state of an agent: `(reputation_score, total_ratings)`. -/
def agentRatingStats (a : Agent) : Nat × Nat := (a.reputation_score, a.total_ratings)

/-! ### Basic lemmas about the machine-arithmetic and account-map helpers -/

theorem checkedAdd64_some {a b v : Nat} (h : checkedAdd64 a b = some v) :
    v = a + b ∧ a + b < u64Mod := by
  unfold checkedAdd64 at h
  split at h
  · exact ⟨(Option.some.inj h).symm, by assumption⟩
  · exact absurd h (by simp)

theorem checkedSub64_some {a b v : Nat} (h : checkedSub64 a b = some v) :
    v = a - b ∧ b ≤ a := by
  unfold checkedSub64 at h
  split at h
  · exact ⟨(Option.some.inj h).symm, by assumption⟩
  · exact absurd h (by simp)

theorem checkedAdd64_eq_some {a b : Nat} (h : a + b < u64Mod) :
    checkedAdd64 a b = some (a + b) := by
  unfold checkedAdd64
  exact if_pos h

theorem checkedAdd64_eq_none {a b : Nat} (h : u64Mod ≤ a + b) :
    checkedAdd64 a b = none := by
  unfold checkedAdd64
  exact if_neg (by omega)

theorem lookupA_cons {K V : Type} [DecidableEq K] (k₁ k : K) (v₁ : V)
    (t : List (K × V)) :
    lookupA ((k₁, v₁) :: t) k = if k₁ = k then some v₁ else lookupA t k := rfl

theorem lookupA_mem {K V : Type} [DecidableEq K] {l : List (K × V)} {k : K}
    {v : V} (h : lookupA l k = some v) : (k, v) ∈ l := by
  induction l with
  | nil => exact absurd h (by simp [lookupA])
  | cons p t ih =>
    obtain ⟨k', v'⟩ := p
    rw [lookupA_cons] at h
    split at h
    · obtain ⟨rfl⟩ := Option.some.inj h
      simp_all
    · exact List.mem_cons_of_mem _ (ih h)

theorem mem_setA {K V : Type} [DecidableEq K] {l : List (K × V)} {k : K}
    {v : V} {p : K × V} (h : p ∈ setA l k v) : p = (k, v) ∨ p ∈ l := by
  unfold setA at h
  obtain ⟨q, hq, hform⟩ := List.mem_map.mp h
  by_cases hk : q.1 = k
  · left
    rw [if_pos hk] at hform
    exact hform.symm
  · right
    rw [if_neg hk] at hform
    exact hform ▸ hq

theorem setA_cons {K V : Type} [DecidableEq K] (k₁ k : K) (v₁ v : V)
    (t : List (K × V)) :
    setA ((k₁, v₁) :: t) k v =
      (if k₁ = k then (k, v) else (k₁, v₁)) :: setA t k v := rfl

theorem lookupA_setA_self {K V : Type} [DecidableEq K] {l : List (K × V)}
    {k : K} {w : V} (v : V) (h : lookupA l k = some w) :
    lookupA (setA l k v) k = some v := by
  induction l with
  | nil => exact absurd h (by simp [lookupA])
  | cons p t ih =>
    obtain ⟨k', v'⟩ := p
    by_cases hk : k' = k
    · rw [setA_cons, if_pos hk, lookupA_cons, if_pos rfl]
    · rw [lookupA_cons, if_neg hk] at h
      rw [setA_cons, if_neg hk, lookupA_cons, if_neg hk]
      exact ih h

theorem lookupA_setA_ne {K V : Type} [DecidableEq K] {l : List (K × V)}
    {k k' : K} (v : V) (h : k' ≠ k) :
    lookupA (setA l k v) k' = lookupA l k' := by
  induction l with
  | nil => simp [setA, lookupA]
  | cons p t ih =>
    obtain ⟨k₁, v₁⟩ := p
    by_cases hk : k₁ = k
    · subst hk
      rw [setA_cons, if_pos rfl, lookupA_cons, lookupA_cons,
        if_neg (Ne.symm h), if_neg fun hh => h hh.symm]
      exact ih
    · rw [setA_cons, if_neg hk, lookupA_cons, lookupA_cons]
      by_cases hk' : k₁ = k'
      · rw [if_pos hk', if_pos hk']
      · rw [if_neg hk', if_neg hk']
        exact ih

theorem div_le_of_le_mul_succ {x b c : Nat} (h : x ≤ b * (c + 1)) :
    x / (c + 1) ≤ b := by
  have h2 : x / (c + 1) ≤ b * (c + 1) / (c + 1) := Nat.div_le_div_right h
  rwa [Nat.mul_div_cancel _ (Nat.succ_pos c)] at h2

/-- Characterization of a successful fee split: the fee is the truncated
quotient and the seller amount is the exact remainder of the price. -/
theorem purchaseFeeSplit_some {p f fee sa : Nat}
    (h : purchaseFeeSplit p f = some (fee, sa)) :
    fee = feeFormula p f % u64Mod ∧ sa = p - fee := by
  unfold purchaseFeeSplit at h
  by_cases h1 : p * f < 2 ^ 128
  · rw [show checkedMul128 p f = some (p * f) from if_pos h1] at h
    dsimp only at h
    rw [show checkedDiv128 (p * f) 10000 = some (p * f / 10000) from
      if_neg (by norm_num)] at h
    dsimp only at h
    cases hs : checkedSub64 p (p * f / 10000 % u64Mod) with
    | none => rw [hs] at h; exact absurd h (by simp)
    | some d =>
      rw [hs] at h
      simp only [Option.some.injEq, Prod.mk.injEq] at h
      obtain ⟨h2, h3⟩ := h
      obtain ⟨rfl, -⟩ := checkedSub64_some hs
      refine ⟨h2.symm, ?_⟩
      rw [← h2, ← h3]
  · rw [show checkedMul128 p f = none from if_neg h1] at h
    exact absurd h (by simp)

/-- With the fee rate capped at 5000 bps the floored fee never exceeds the
price. -/
theorem feeFormula_le (p f : Nat) (hf : f ≤ 5000) : feeFormula p f ≤ p := by
  unfold feeFormula
  have hmul : p * f ≤ p * 5000 := Nat.mul_le_mul_left p hf
  have h1 : p * f / 10000 ≤ p * 5000 / 10000 := Nat.div_le_div_right hmul
  have h2 : p * 5000 / 10000 ≤ p := by
    have h3 : p * 5000 ≤ p * 10000 := Nat.mul_le_mul_left p (by norm_num)
    have h4 := Nat.div_le_div_right (c := 10000) h3
    rwa [Nat.mul_div_cancel p (by norm_num : 0 < 10000)] at h4
  omega

/-- Under the marketplace fee invariant (`fee_bps ≤ 5000`) and a `u64` price,
the fee split succeeds exactly: no `as u64` truncation occurs and the seller
amount is `price - fee`. -/
theorem purchaseFeeSplit_eq {p f : Nat} (hp : p < u64Mod) (hf : f ≤ 5000) :
    purchaseFeeSplit p f = some (feeFormula p f, p - feeFormula p f) := by
  have hlt : p * f < 2 ^ 128 := by
    have hmul : p * f ≤ p * 5000 := Nat.mul_le_mul_left p hf
    have h5 : p * 5000 < u64Mod * 5000 :=
      Nat.mul_lt_mul_of_lt_of_le hp (le_refl 5000) (by norm_num)
    have hbig : u64Mod * 5000 < 2 ^ 128 := by norm_num [u64Mod]
    omega
  have hfee_le : feeFormula p f ≤ p := feeFormula_le p f hf
  have hfee_lt : feeFormula p f < u64Mod := lt_of_le_of_lt hfee_le hp
  unfold purchaseFeeSplit
  rw [show checkedMul128 p f = some (p * f) from if_pos hlt]
  dsimp only
  rw [show checkedDiv128 (p * f) 10000 = some (p * f / 10000) from
    if_neg (by norm_num)]
  dsimp only
  rw [show p * f / 10000 % u64Mod = feeFormula p f from
    Nat.mod_eq_of_lt hfee_lt]
  rw [show checkedSub64 p (feeFormula p f) = some (p - feeFormula p f) from
    if_pos hfee_le]

/-! ### Concrete fixture states, built by running the transitions -/

/-- Extract the state of a successful transition (fixtures only use it on
transitions that do succeed). -/
def okOr (r : Except TxErr SysState) : SysState :=
  match r with
  | .ok s => s
  | .error _ => SysState.empty

/-- Fallback marketplace record for total lookups on fixtures. -/
def someMkt : Marketplace :=
  { authority := 0, fee_bps := 0, total_skills := 0, total_purchases := 0,
    total_volume_usdc := 0 }

/-- Fallback agent record for total lookups on fixtures. -/
def someAgent : Agent :=
  { owner := 0, name := "", metadata_uri := "", skills_published := 0,
    skills_sold := 0, total_earnings := 0, reputation_score := 0,
    total_ratings := 0, created_at := 0 }

/-- Fallback skill record for total lookups on fixtures. -/
def someSkill : Skill :=
  { publisher := 0, agent := 0, skill_id := "", name := "",
    description := "", endpoint_count := 0, auth_type := AuthType.None,
    price_usdc := 0, metadata_uri := "", total_purchases := 0,
    total_revenue := 0, avg_rating := 0, total_ratings := 0,
    is_active := false, created_at := 0, updated_at := 0 }

/-- Fallback purchase record for total lookups on fixtures. -/
def somePurchase : Purchase :=
  { buyer := 0, skill := "", price_paid := 0, fee_paid := 0,
    purchased_at := 0, rating := 0 }

/-- The marketplace record of a state (fallback if absent). -/
def mktAt (s : SysState) : Marketplace := s.marketplace.getD someMkt

/-- The skill stored under `sid` (fallback if absent). -/
def skillAt (s : SysState) (sid : String) : Skill :=
  (lookupA s.skills sid).getD someSkill

/-- The agent stored under key `k` (fallback if absent). -/
def agentAt (s : SysState) (k : Nat) : Agent :=
  (lookupA s.agents k).getD someAgent

/-- The purchase stored under `(b, sid)` (fallback if absent). -/
def purchaseAt (s : SysState) (b : Nat) (sid : String) : Purchase :=
  (lookupA s.purchases (b, sid)).getD somePurchase

/-- Fixture: marketplace initialized with a 250 bps fee. -/
def demoMkt : SysState := okOr (initMarketplace 0 250 SysState.empty)

/-- Fixture: agent 7 registered on `demoMkt`. -/
def demoAgent : SysState := okOr (register_agent 7 "p" "u" 0 demoMkt)

/-- Fixture: agent 7 has published skill "sk" at price 1000000 on
`demoAgent`. -/
def demoSkill : SysState :=
  okOr (register_skill 7 "sk" "n" "d" 1 AuthType.None 1000000 "u" 0 demoAgent)

/-- Fixture: buyer 1 has purchased "sk" on `demoSkill`. -/
def demoBought : SysState :=
  okOr ((purchase_skill 1 "sk" 100 101 102 0 demoSkill).map Prod.fst)

/-- Fixture: buyer 1 has rated the purchase 5 on `demoBought`. -/
def demoRated : SysState := okOr (rate_skill 1 "sk" 5 demoBought)

/-- Fixture: skill "sk" deactivated by its publisher on `demoSkill`. -/
def demoOff : SysState := okOr (deactivate_skill 7 "sk" 1 demoSkill)

/-! ### Claims -/

/-- C1: for every price > 0 (a `u64` value, so below `2 ^ 64`) and
fee_bps ≤ 5000, the fee computed by `purchase_skill`'s fee split (source
lines 109-116) equals `floor(price * fee_bps / 10000)` exactly — the 128-bit
intermediate product never overflows and the `as u64` cast never truncates —
the seller amount equals `price - fee`, and `fee + seller_amount = price`. -/
theorem claim_C1 (price fee_bps : Nat) (hp : 0 < price) (hw : price < u64Mod)
    (hf : fee_bps ≤ 5000) :
    purchaseFeeSplit price fee_bps =
      some (feeFormula price fee_bps, price - feeFormula price fee_bps) ∧
    feeFormula price fee_bps = price * fee_bps / 10000 ∧
    feeFormula price fee_bps + (price - feeFormula price fee_bps) = price := by
  refine ⟨purchaseFeeSplit_eq hw hf, rfl, ?_⟩
  have hle := feeFormula_le price fee_bps hf
  omega

/-- Witness for C1: the split at the claim's example points, re-evaluated:
price 1 with the maximal 5000 bps gives fee 0 and seller amount 1; price
1000000 with 250 bps gives fee 25000 (and seller amount 975000). -/
theorem claim_C1_witness :
    (purchaseFeeSplit 1 5000 =
      some (feeFormula 1 5000, 1 - feeFormula 1 5000) ∧
     feeFormula 1 5000 = 1 * 5000 / 10000 ∧
     feeFormula 1 5000 + (1 - feeFormula 1 5000) = 1) ∧
    purchaseFeeSplit 1 5000 = some (0, 1) ∧
    purchaseFeeSplit 1000000 250 = some (25000, 975000) :=
  ⟨claim_C1 1 5000 (by decide) (by decide) (by decide), by decide, by decide⟩

/-- C2: a successful `purchase_skill` increments `skill.total_purchases` by
1, adds the full price to `skill.total_revenue`, increments
`seller_agent.skills_sold` by 1, adds exactly
`seller_amount = price - fee` to `seller_agent.total_earnings`, increments
`marketplace.total_purchases` by 1, adds the full price to
`marketplace.total_volume_usdc`, and records `price_paid = price` and
`fee_paid = fee` on the purchase (with `fee` the truncated
`floor(price * fee_bps / 10000)` the code computes). -/
theorem claim_C2 (s s' : SysState) (tr : List Transfer)
    (b bta sta tta : Nat) (sid : String) (t : Int)
    (m : Marketplace) (sk : Skill) (ag : Agent)
    (hm : s.marketplace = some m) (hsk : lookupA s.skills sid = some sk)
    (hag : lookupA s.agents sk.publisher = some ag)
    (h : purchase_skill b sid bta sta tta t s = .ok (s', tr)) :
    (lookupA s'.skills sid).map skillSaleStats =
      some (sk.total_purchases + 1, sk.total_revenue + sk.price_usdc) ∧
    (lookupA s'.agents sk.publisher).map agentSaleStats =
      some (ag.skills_sold + 1, ag.total_earnings +
        (sk.price_usdc - feeFormula sk.price_usdc m.fee_bps % u64Mod)) ∧
    Option.map mktSaleStats s'.marketplace =
      some (m.total_purchases + 1, m.total_volume_usdc + sk.price_usdc) ∧
    (lookupA s'.purchases (b, sid)).map purchasePaid =
      some (sk.price_usdc, feeFormula sk.price_usdc m.fee_bps % u64Mod) := by
  unfold purchase_skill at h
  rw [hm] at h
  dsimp only at h
  rw [hsk] at h
  dsimp only at h
  split at h
  next =>
    rw [hag] at h
    dsimp only at h
    cases hpu : lookupA s.purchases (b, sid) with
    | some p => rw [hpu] at h; simp at h
    | none =>
      rw [hpu] at h
      dsimp only at h
      cases hfs : purchaseFeeSplit sk.price_usdc m.fee_bps with
      | none => rw [hfs] at h; simp at h
      | some pr =>
        obtain ⟨fee, sa⟩ := pr
        rw [hfs] at h
        dsimp only at h
        obtain ⟨hfee, hsa⟩ := purchaseFeeSplit_some hfs
        cases h1 : checkedAdd64 sk.total_purchases 1 with
        | none => rw [h1] at h; simp at h
        | some stp =>
          rw [h1] at h
          dsimp only at h
          obtain ⟨hstp, -⟩ := checkedAdd64_some h1
          cases h2 : checkedAdd64 sk.total_revenue sk.price_usdc with
          | none => rw [h2] at h; simp at h
          | some str =>
            rw [h2] at h
            dsimp only at h
            obtain ⟨hstr, -⟩ := checkedAdd64_some h2
            cases h3 : checkedAdd64 ag.skills_sold 1 with
            | none => rw [h3] at h; simp at h
            | some sss =>
              rw [h3] at h
              dsimp only at h
              obtain ⟨hsss, -⟩ := checkedAdd64_some h3
              cases h4 : checkedAdd64 ag.total_earnings sa with
              | none => rw [h4] at h; simp at h
              | some ste =>
                rw [h4] at h
                dsimp only at h
                obtain ⟨hste, -⟩ := checkedAdd64_some h4
                cases h5 : checkedAdd64 m.total_purchases 1 with
                | none => rw [h5] at h; simp at h
                | some mtp =>
                  rw [h5] at h
                  dsimp only at h
                  obtain ⟨hmtp, -⟩ := checkedAdd64_some h5
                  cases h6 : checkedAdd64 m.total_volume_usdc sk.price_usdc with
                  | none => rw [h6] at h; simp at h
                  | some mtv =>
                    rw [h6] at h
                    dsimp only at h
                    simp only [Except.ok.injEq, Prod.mk.injEq] at h
                    obtain ⟨hmtv, -⟩ := checkedAdd64_some h6
                    obtain ⟨hS, -⟩ := h
                    subst hS
                    refine ⟨?_, ?_, ?_, ?_⟩
                    · dsimp only
                      rw [lookupA_setA_self _ hsk]
                      simp [skillSaleStats, hstp, hstr]
                    · dsimp only
                      rw [lookupA_setA_self _ hag]
                      simp [agentSaleStats, hsss, hste, hsa, hfee]
                    · dsimp only
                      simp [mktSaleStats, hmtp, hmtv]
                    · dsimp only
                      rw [lookupA_cons, if_pos rfl]
                      simp [purchasePaid, hfee]
  next => simp at h

/-- The transfer list emitted by the fixture purchase behind `demoBought`. -/
def demoTransfers : List Transfer :=
  match purchase_skill 1 "sk" 100 101 102 0 demoSkill with
  | .ok (_, tr) => tr
  | .error _ => []

/-- Witness for C2: the claim's concrete scenario — fee_bps 250, price
1000000 — yields fee_paid 25000, seller earnings delta exactly 975000 (on a
fresh agent: total 975000), and volume delta exactly 1000000. -/
theorem claim_C2_witness :
    ((lookupA demoBought.skills "sk").map skillSaleStats =
      some ((skillAt demoSkill "sk").total_purchases + 1,
        (skillAt demoSkill "sk").total_revenue +
          (skillAt demoSkill "sk").price_usdc) ∧
     (lookupA demoBought.agents
        (skillAt demoSkill "sk").publisher).map agentSaleStats =
      some ((agentAt demoSkill 7).skills_sold + 1,
        (agentAt demoSkill 7).total_earnings +
          ((skillAt demoSkill "sk").price_usdc -
            feeFormula (skillAt demoSkill "sk").price_usdc
              (mktAt demoSkill).fee_bps % u64Mod)) ∧
     Option.map mktSaleStats demoBought.marketplace =
      some ((mktAt demoSkill).total_purchases + 1,
        (mktAt demoSkill).total_volume_usdc +
          (skillAt demoSkill "sk").price_usdc) ∧
     (lookupA demoBought.purchases (1, "sk")).map purchasePaid =
      some ((skillAt demoSkill "sk").price_usdc,
        feeFormula (skillAt demoSkill "sk").price_usdc
          (mktAt demoSkill).fee_bps % u64Mod)) ∧
    agentSaleStats (agentAt demoBought 7) = (1, 975000) ∧
    mktSaleStats (mktAt demoBought) = (1, 1000000) ∧
    purchasePaid (purchaseAt demoBought 1 "sk") = (1000000, 25000) :=
  ⟨claim_C2 demoSkill demoBought demoTransfers 1 100 101 102 "sk" 0
    (mktAt demoSkill) (skillAt demoSkill "sk") (agentAt demoSkill 7)
    rfl rfl rfl rfl, by decide, by decide, by decide⟩

/-- A state whose skill counter sits at the maximal `u64` value, for
exercising the counter-overflow path of `purchase_skill`. -/
def overflowState : SysState :=
  { marketplace := some
      { authority := 0, fee_bps := 250, total_skills := 1,
        total_purchases := 0, total_volume_usdc := 0 },
    agents := [(7,
      { owner := 7, name := "p", metadata_uri := "u", skills_published := 1,
        skills_sold := 0, total_earnings := 0, reputation_score := 0,
        total_ratings := 0, created_at := 0 })],
    skills := [("sk",
      { publisher := 7, agent := 7, skill_id := "sk", name := "n",
        description := "d", endpoint_count := 1, auth_type := AuthType.None,
        price_usdc := 1000000, metadata_uri := "u",
        total_purchases := 18446744073709551615, total_revenue := 0,
        avg_rating := 0, total_ratings := 0, is_active := true,
        created_at := 0, updated_at := 0 })],
    purchases := [] }

/-- Counterexample for C3: with `skill.total_purchases` at the maximal `u64`
value, a purchase fails by an `unwrap` panic (`TxErr.panicked`), which is not
any of the program's ten `ErrorCode` outcomes — the program defines no
Overflow error code at all (source lines 487-509), so the transition cannot
fail "with the Overflow error" as the claim states. -/
theorem claim_C3_counterexample :
    purchase_skill 2 "sk" 100 101 102 0 overflowState =
      .error .panicked ∧
    TxErr.panicked ≠ .code .FeeTooHigh ∧
    TxErr.panicked ≠ .code .NameTooLong ∧
    TxErr.panicked ≠ .code .UriTooLong ∧
    TxErr.panicked ≠ .code .SkillIdTooLong ∧
    TxErr.panicked ≠ .code .DescriptionTooLong ∧
    TxErr.panicked ≠ .code .PriceMustBePositive ∧
    TxErr.panicked ≠ .code .SkillNotActive ∧
    TxErr.panicked ≠ .code .InvalidRating ∧
    TxErr.panicked ≠ .code .AlreadyRated ∧
    TxErr.panicked ≠ .code .Unauthorized :=
  ⟨rfl, by decide, by decide, by decide, by decide, by decide, by decide,
    by decide, by decide, by decide, by decide⟩

/-- A state whose agent counter `skills_published` sits at the maximal
`u64` value, for exercising the counter-overflow path of `register_skill`. -/
def regOverflowState : SysState :=
  { marketplace := some
      { authority := 0, fee_bps := 250, total_skills := 0,
        total_purchases := 0, total_volume_usdc := 0 },
    agents := [(7,
      { owner := 7, name := "p", metadata_uri := "u",
        skills_published := 18446744073709551615, skills_sold := 0,
        total_earnings := 0, reputation_score := 0, total_ratings := 0,
        created_at := 0 })],
    skills := [],
    purchases := [] }

/-- A state whose skill counter `total_ratings` sits at the maximal `u64`
value, with an unrated purchase in place, for exercising the
counter-overflow path of `rate_skill`. -/
def rateOverflowState : SysState :=
  { marketplace := some
      { authority := 0, fee_bps := 250, total_skills := 1,
        total_purchases := 1, total_volume_usdc := 1000000 },
    agents := [(7,
      { owner := 7, name := "p", metadata_uri := "u", skills_published := 1,
        skills_sold := 1, total_earnings := 975000, reputation_score := 5,
        total_ratings := 3, created_at := 0 })],
    skills := [("sk",
      { publisher := 7, agent := 7, skill_id := "sk", name := "n",
        description := "d", endpoint_count := 1, auth_type := AuthType.None,
        price_usdc := 1000000, metadata_uri := "u", total_purchases := 1,
        total_revenue := 1000000, avg_rating := 5,
        total_ratings := 18446744073709551615, is_active := true,
        created_at := 0, updated_at := 0 })],
    purchases := [((1, "sk"),
      { buyer := 1, skill := "sk", price_paid := 1000000,
        fee_paid := 25000, purchased_at := 0, rating := 0 })] }

/-- C3 (amended): every counter increment performed by a transition —
`agent.skills_published` and `marketplace.total_skills` in `register_skill`
(source lines 94, 98), the six counters of `purchase_skill` (lines
168-181), and the two `total_ratings` counts of `rate_skill` (lines 202,
209) — uses `checked_add(..).unwrap()`: when the addition would exceed the
maximal `u64` value the transition fails, aborting with a Rust panic so
nothing wraps around and no state is committed, rather than failing with a
dedicated Overflow error code, which the program does not define. -/
theorem claim_C3_amended :
    (∀ (p : Nat) (sid nm d : String) (ec : Nat) (at0 : AuthType) (pr : Nat)
      (uri : String) (t : Int) (s : SysState) (ag : Agent) (m : Marketplace),
      lookupA s.agents p = some ag → ag.owner = p → s.marketplace = some m →
      lookupA s.skills sid = none → sid.length ≤ 64 → nm.length ≤ 64 →
      d.length ≤ 256 → uri.length ≤ 200 → 0 < pr →
      (u64Mod ≤ ag.skills_published + 1 ∨ u64Mod ≤ m.total_skills + 1) →
      register_skill p sid nm d ec at0 pr uri t s = .error .panicked) ∧
    (∀ (b bta sta tta : Nat) (sid : String) (t : Int) (s : SysState)
      (m : Marketplace) (sk : Skill) (ag : Agent),
      s.marketplace = some m → lookupA s.skills sid = some sk →
      sk.is_active = true → lookupA s.agents sk.publisher = some ag →
      lookupA s.purchases (b, sid) = none → m.fee_bps ≤ 5000 →
      sk.price_usdc < u64Mod →
      (u64Mod ≤ sk.total_purchases + 1 ∨
       u64Mod ≤ sk.total_revenue + sk.price_usdc ∨
       u64Mod ≤ ag.skills_sold + 1 ∨
       u64Mod ≤ ag.total_earnings +
         (sk.price_usdc - feeFormula sk.price_usdc m.fee_bps) ∨
       u64Mod ≤ m.total_purchases + 1 ∨
       u64Mod ≤ m.total_volume_usdc + sk.price_usdc) →
      purchase_skill b sid bta sta tta t s = .error .panicked) ∧
    (∀ (b r : Nat) (sid : String) (s : SysState) (pur : Purchase)
      (sk : Skill) (ag : Agent),
      lookupA s.purchases (b, sid) = some pur → pur.buyer = b →
      lookupA s.skills sid = some sk →
      lookupA s.agents sk.publisher = some ag → 1 ≤ r → r ≤ 5 →
      pur.rating = 0 →
      (u64Mod ≤ sk.total_ratings + 1 ∨ u64Mod ≤ ag.total_ratings + 1) →
      rate_skill b sid r s = .error .panicked) := by
  refine ⟨?_, ?_, ?_⟩
  · intro p sid nm d ec at0 pr uri t s ag m hA hown hM hS h64 h64n h256
      h200 hpr hov
    unfold register_skill
    rw [hA]
    dsimp only
    rw [if_pos hown]
    rw [hM]
    dsimp only
    rw [hS]
    dsimp only
    rw [if_pos h64, if_pos h64n, if_pos h256, if_pos h200, if_pos hpr]
    by_cases c1 : ag.skills_published + 1 < u64Mod
    case neg => rw [checkedAdd64_eq_none (by omega)]
    case pos =>
      rw [checkedAdd64_eq_some c1]
      dsimp only
      by_cases c2 : m.total_skills + 1 < u64Mod
      case neg => rw [checkedAdd64_eq_none (by omega)]
      case pos => exact absurd hov (by omega)
  · intro b bta sta tta sid t s m sk ag hm hsk hact hag hpu hfb hw hov
    unfold purchase_skill
    rw [hm]
    dsimp only
    rw [hsk]
    dsimp only
    rw [if_pos hact]
    rw [hag]
    dsimp only
    rw [hpu]
    dsimp only
    rw [if_pos hact]
    rw [purchaseFeeSplit_eq hw hfb]
    dsimp only
    by_cases c1 : sk.total_purchases + 1 < u64Mod
    case neg => rw [checkedAdd64_eq_none (by omega)]
    case pos =>
      rw [checkedAdd64_eq_some c1]
      dsimp only
      by_cases c2 : sk.total_revenue + sk.price_usdc < u64Mod
      case neg => rw [checkedAdd64_eq_none (by omega)]
      case pos =>
        rw [checkedAdd64_eq_some c2]
        dsimp only
        by_cases c3 : ag.skills_sold + 1 < u64Mod
        case neg => rw [checkedAdd64_eq_none (by omega)]
        case pos =>
          rw [checkedAdd64_eq_some c3]
          dsimp only
          by_cases c4 : ag.total_earnings +
              (sk.price_usdc - feeFormula sk.price_usdc m.fee_bps) < u64Mod
          case neg => rw [checkedAdd64_eq_none (by omega)]
          case pos =>
            rw [checkedAdd64_eq_some c4]
            dsimp only
            by_cases c5 : m.total_purchases + 1 < u64Mod
            case neg => rw [checkedAdd64_eq_none (by omega)]
            case pos =>
              rw [checkedAdd64_eq_some c5]
              dsimp only
              by_cases c6 : m.total_volume_usdc + sk.price_usdc < u64Mod
              case neg => rw [checkedAdd64_eq_none (by omega)]
              case pos => exact absurd hov (by omega)
  · intro b r sid s pur sk ag hP hb hS hA hr1 hr5 hr0 hov
    unfold rate_skill
    rw [hP]
    dsimp only
    rw [if_pos hb]
    rw [hS]
    dsimp only
    rw [hA]
    dsimp only
    rw [if_pos (⟨hr1, hr5⟩ : 1 ≤ r ∧ r ≤ 5)]
    rw [if_pos hr0]
    by_cases c1 : sk.total_ratings + 1 < u64Mod
    case neg => rw [checkedAdd64_eq_none (by omega)]
    case pos =>
      rw [checkedAdd64_eq_some c1]
      dsimp only
      by_cases c2 : ag.total_ratings + 1 < u64Mod
      case neg => rw [checkedAdd64_eq_none (by omega)]
      case pos => exact absurd hov (by omega)

/-- Witness for C3 (amended): each of the three transitions that increments
counters aborts with a panic on its overflow fixture — `register_skill` with
`skills_published` at the `u64` maximum, `purchase_skill` with
`total_purchases` at the maximum, and `rate_skill` with `total_ratings` at
the maximum. -/
theorem claim_C3_witness :
    register_skill 7 "sk2" "n" "d" 1 AuthType.None 5 "u" 0 regOverflowState =
      .error .panicked ∧
    purchase_skill 2 "sk" 100 101 102 0 overflowState = .error .panicked ∧
    rate_skill 1 "sk" 4 rateOverflowState = .error .panicked :=
  ⟨claim_C3_amended.1 7 "sk2" "n" "d" 1 AuthType.None 5 "u" 0
    regOverflowState (agentAt regOverflowState 7) (mktAt regOverflowState)
    rfl rfl rfl rfl (by decide) (by decide) (by decide) (by decide)
    (by decide) (Or.inl (by decide)),
   claim_C3_amended.2.1 2 100 101 102 "sk" 0 overflowState
    (mktAt overflowState) (skillAt overflowState "sk")
    (agentAt overflowState 7) rfl rfl rfl rfl rfl (by decide) (by decide)
    (Or.inl (by decide)),
   claim_C3_amended.2.2 1 4 "sk" rateOverflowState
    (purchaseAt rateOverflowState 1 "sk") (skillAt rateOverflowState "sk")
    (agentAt rateOverflowState 7) rfl rfl rfl rfl (by decide) (by decide)
    rfl (Or.inl (by decide))⟩

/-- C4: `rate_skill` updates the skill's `(avg_rating, total_ratings)` and
the seller agent's `(reputation_score, total_ratings)` by the same
recurrence `new_total = old_avg * old_count + rating;
new_count = old_count + 1; new_avg = floor(new_total / new_count)`
(`ratingStep`), and writes the rating to the purchase.  The hypotheses keep
the wrapping `u64` product and the `as u8` cast of the source inside their
exact range, as they are in every state the program reaches. -/
theorem claim_C4 (s s' : SysState) (b r : Nat) (sid : String)
    (pur : Purchase) (sk : Skill) (ag : Agent)
    (hpu : lookupA s.purchases (b, sid) = some pur) (hb : pur.buyer = b)
    (hsk : lookupA s.skills sid = some sk)
    (hag : lookupA s.agents sk.publisher = some ag)
    (hr1 : 1 ≤ r) (hr5 : r ≤ 5) (hr0 : pur.rating = 0)
    (havg : sk.avg_rating ≤ 5) (hrep : ag.reputation_score ≤ 5)
    (hw1 : sk.avg_rating * sk.total_ratings + r < u64Mod)
    (hw2 : ag.reputation_score * ag.total_ratings + r < u64Mod)
    (h : rate_skill b sid r s = .ok s') :
    (lookupA s'.skills sid).map skillRatingStats =
      some (ratingStep sk.avg_rating sk.total_ratings r) ∧
    (lookupA s'.agents sk.publisher).map agentRatingStats =
      some (ratingStep ag.reputation_score ag.total_ratings r) ∧
    (lookupA s'.purchases (b, sid)).map Purchase.rating = some r := by
  unfold rate_skill at h
  rw [hpu] at h
  dsimp only at h
  rw [if_pos hb] at h
  rw [hsk] at h
  dsimp only at h
  rw [hag] at h
  dsimp only at h
  rw [if_pos (⟨hr1, hr5⟩ : 1 ≤ r ∧ r ≤ 5)] at h
  rw [if_pos hr0] at h
  cases h1 : checkedAdd64 sk.total_ratings 1 with
  | none => rw [h1] at h; simp at h
  | some str =>
    rw [h1] at h
    dsimp only at h
    obtain ⟨hstr, -⟩ := checkedAdd64_some h1
    cases h2 : checkedAdd64 ag.total_ratings 1 with
    | none => rw [h2] at h; simp at h
    | some atr =>
      rw [h2] at h
      dsimp only at h
      obtain ⟨hatr, -⟩ := checkedAdd64_some h2
      simp only [Except.ok.injEq] at h
      subst h
      have hmod1 : (sk.avg_rating * sk.total_ratings + r) % u64Mod =
          sk.avg_rating * sk.total_ratings + r := Nat.mod_eq_of_lt hw1
      have hmod2 : (ag.reputation_score * ag.total_ratings + r) % u64Mod =
          ag.reputation_score * ag.total_ratings + r := Nat.mod_eq_of_lt hw2
      have hq1 : (sk.avg_rating * sk.total_ratings + r) /
          (sk.total_ratings + 1) ≤ 5 := by
        apply div_le_of_le_mul_succ
        have hmc : sk.avg_rating * sk.total_ratings ≤
            5 * sk.total_ratings := Nat.mul_le_mul_right _ havg
        omega
      have hq2 : (ag.reputation_score * ag.total_ratings + r) /
          (ag.total_ratings + 1) ≤ 5 := by
        apply div_le_of_le_mul_succ
        have hmc : ag.reputation_score * ag.total_ratings ≤
            5 * ag.total_ratings := Nat.mul_le_mul_right _ hrep
        omega
      have hcast1 : (sk.avg_rating * sk.total_ratings + r) /
          (sk.total_ratings + 1) % 256 =
          (sk.avg_rating * sk.total_ratings + r) / (sk.total_ratings + 1) :=
        Nat.mod_eq_of_lt (lt_of_le_of_lt hq1 (by norm_num))
      have hcast2 : (ag.reputation_score * ag.total_ratings + r) /
          (ag.total_ratings + 1) % 256 =
          (ag.reputation_score * ag.total_ratings + r) /
            (ag.total_ratings + 1) :=
        Nat.mod_eq_of_lt (lt_of_le_of_lt hq2 (by norm_num))
      refine ⟨?_, ?_, ?_⟩
      · dsimp only
        rw [lookupA_setA_self _ hsk]
        simp [skillRatingStats, ratingStep, hstr, hmod1, hcast1]
      · dsimp only
        rw [lookupA_setA_self _ hag]
        simp [agentRatingStats, ratingStep, hatr, hmod2, hcast2]
      · dsimp only
        rw [lookupA_setA_self _ hpu]
        simp

/-- Fixture: buyer 2 has also purchased "sk" (after `demoBought`). -/
def demoBought2 : SysState :=
  okOr ((purchase_skill 2 "sk" 100 101 102 0 demoBought).map Prod.fst)

/-- Fixture: buyer 3 has also purchased "sk" (after `demoBought2`). -/
def demoBought3 : SysState :=
  okOr ((purchase_skill 3 "sk" 100 101 102 0 demoBought2).map Prod.fst)

/-- Fixture: buyer 1 rated 5 on the three-purchase state. -/
def demoR1 : SysState := okOr (rate_skill 1 "sk" 5 demoBought3)

/-- Fixture: buyer 2 then rated 1. -/
def demoR2 : SysState := okOr (rate_skill 2 "sk" 1 demoR1)

/-- Fixture: buyer 3 then rated 4. -/
def demoR3 : SysState := okOr (rate_skill 3 "sk" 4 demoR2)

/-- Witness for C4: the first rating (5 on a fresh skill/agent) goes through
the recurrence, and the claim's 5, 1, 4 sequence yields the average sequence
5, 3, 3 on both the skill and the seller agent. -/
theorem claim_C4_witness :
    ((lookupA demoR1.skills "sk").map skillRatingStats =
      some (ratingStep (skillAt demoBought3 "sk").avg_rating
        (skillAt demoBought3 "sk").total_ratings 5) ∧
     (lookupA demoR1.agents (skillAt demoBought3 "sk").publisher).map
        agentRatingStats =
      some (ratingStep (agentAt demoBought3 7).reputation_score
        (agentAt demoBought3 7).total_ratings 5) ∧
     (lookupA demoR1.purchases (1, "sk")).map Purchase.rating = some 5) ∧
    skillRatingStats (skillAt demoR1 "sk") = (5, 1) ∧
    skillRatingStats (skillAt demoR2 "sk") = (3, 2) ∧
    skillRatingStats (skillAt demoR3 "sk") = (3, 3) ∧
    agentRatingStats (agentAt demoR1 7) = (5, 1) ∧
    agentRatingStats (agentAt demoR2 7) = (3, 2) ∧
    agentRatingStats (agentAt demoR3 7) = (3, 3) :=
  ⟨claim_C4 demoBought3 demoR1 1 5 "sk" (purchaseAt demoBought3 1 "sk")
    (skillAt demoBought3 "sk") (agentAt demoBought3 7) rfl rfl rfl rfl
    (by decide) (by decide) rfl (by decide) (by decide) (by decide)
    (by decide) rfl,
   by decide, by decide, by decide, by decide, by decide, by decide⟩

/-- C5: the rating field of a purchase is write-once: when the stored
purchase has a nonzero rating, a further `rate_skill` call with any valid
rating fails with `AlreadyRated`; the failed transaction commits nothing, so
the purchase record and both running averages are unchanged. -/
theorem claim_C5 (s : SysState) (sid : String) (b r : Nat) (pur : Purchase)
    (sk : Skill) (ag : Agent)
    (hpu : lookupA s.purchases (b, sid) = some pur) (hb : pur.buyer = b)
    (hsk : lookupA s.skills sid = some sk)
    (hag : lookupA s.agents sk.publisher = some ag)
    (hr1 : 1 ≤ r) (hr5 : r ≤ 5) (hrated : pur.rating ≠ 0) :
    rate_skill b sid r s = .error (.code .AlreadyRated) := by
  simp [rate_skill, hpu, hb, hsk, hag, hr1, hr5, hrated]

/-- Witness for C5: after buyer 1 has rated their purchase 5, a second
rating attempt is rejected with `AlreadyRated`. -/
theorem claim_C5_witness :
    rate_skill 1 "sk" 4 demoRated = .error (.code .AlreadyRated) :=
  claim_C5 demoRated "sk" 1 4 (purchaseAt demoRated 1 "sk")
    (skillAt demoRated "sk") (agentAt demoRated 7) rfl rfl rfl rfl
    (by decide) (by decide) (by decide)

/-- C6: purchasing a skill whose `is_active` flag is false fails with
`SkillNotActive` (the constraint on the `skill` account fires before the
purchase-ledger `init`, the transfers and the counter updates); the failed
transaction commits nothing, so no record is created, no counter changes and
no transfer is invoked. -/
theorem claim_C6 (s : SysState) (m : Marketplace) (sid : String) (sk : Skill)
    (b bta sta tta : Nat) (t : Int)
    (hm : s.marketplace = some m) (hsk : lookupA s.skills sid = some sk)
    (hia : sk.is_active = false) :
    purchase_skill b sid bta sta tta t s = .error (.code .SkillNotActive) := by
  simp [purchase_skill, hm, hsk, hia]

/-- Witness for C6: buying the deactivated listing of the `demoOff` fixture
is rejected with `SkillNotActive`. -/
theorem claim_C6_witness :
    purchase_skill 2 "sk" 100 101 102 0 demoOff =
      .error (.code .SkillNotActive) :=
  claim_C6 demoOff (mktAt demoOff) "sk" (skillAt demoOff "sk")
    2 100 101 102 0 rfl rfl rfl

/-- C7: from a caller different from the recorded publisher, both
`update_skill_price` and `deactivate_skill` fail with `Unauthorized` (the
`skill.publisher == publisher` account constraint fires before either
handler body); the failed transactions commit nothing, so every field of the
skill record is unchanged. -/
theorem claim_C7 (s : SysState) (sid : String) (sk : Skill)
    (caller np : Nat) (t : Int)
    (hsk : lookupA s.skills sid = some sk) (hne : caller ≠ sk.publisher) :
    update_skill_price caller sid np t s = .error (.code .Unauthorized) ∧
    deactivate_skill caller sid t s = .error (.code .Unauthorized) := by
  constructor
  · simp [update_skill_price, hsk, Ne.symm hne]
  · simp [deactivate_skill, hsk, Ne.symm hne]

/-- Witness for C7: caller 8 acting on the skill published by 7 in the
`demoSkill` fixture is rejected by both mutating instructions. -/
theorem claim_C7_witness :
    update_skill_price 8 "sk" 5 0 demoSkill = .error (.code .Unauthorized) ∧
    deactivate_skill 8 "sk" 0 demoSkill = .error (.code .Unauthorized) :=
  claim_C7 demoSkill "sk" (skillAt demoSkill "sk") 8 5 0 rfl (by decide)

/-! ### Success-shape lemmas: what each transition does to the account maps
when it succeeds -/

theorem initMarketplace_ok {a fb : Nat} {s s' : SysState}
    (h : initMarketplace a fb s = .ok s') :
    s'.skills = s.skills ∧ s'.agents = s.agents := by
  unfold initMarketplace at h
  cases hm : s.marketplace with
  | some m => rw [hm] at h; simp at h
  | none =>
    rw [hm] at h
    dsimp only at h
    split at h
    next =>
      simp only [Except.ok.injEq] at h
      subst h
      exact ⟨rfl, rfl⟩
    next => simp at h

theorem register_agent_ok {o : Nat} {nm uri : String} {t : Int}
    {s s' : SysState} (h : register_agent o nm uri t s = .ok s') :
    s'.skills = s.skills ∧ s'.purchases = s.purchases ∧
    ∃ a0 : Agent, s'.agents = (o, a0) :: s.agents ∧
      a0.reputation_score = 0 := by
  unfold register_agent at h
  cases hA : lookupA s.agents o with
  | some x => rw [hA] at h; simp at h
  | none =>
    rw [hA] at h
    dsimp only at h
    split at h
    next =>
      split at h
      next =>
        simp only [Except.ok.injEq] at h
        subst h
        exact ⟨rfl, rfl, _, rfl, rfl⟩
      next => simp at h
    next => simp at h

theorem register_skill_ok {p : Nat} {sid2 nm d : String} {ec : Nat}
    {at0 : AuthType} {pr : Nat} {uri : String} {t : Int} {s s' : SysState}
    (h : register_skill p sid2 nm d ec at0 pr uri t s = .ok s') :
    lookupA s.skills sid2 = none ∧ s'.purchases = s.purchases ∧
    ∃ sk0 ag ag', lookupA s.agents p = some ag ∧
      s'.skills = (sid2, sk0) :: s.skills ∧ sk0.avg_rating = 0 ∧
      sk0.is_active = true ∧ s'.agents = setA s.agents p ag' ∧
      ag'.reputation_score = ag.reputation_score := by
  unfold register_skill at h
  cases hA : lookupA s.agents p with
  | none => rw [hA] at h; simp at h
  | some ag =>
    rw [hA] at h
    dsimp only at h
    split at h
    next =>
      cases hM : s.marketplace with
      | none => rw [hM] at h; simp at h
      | some m =>
        rw [hM] at h
        dsimp only at h
        cases hS : lookupA s.skills sid2 with
        | some x => rw [hS] at h; simp at h
        | none =>
          rw [hS] at h
          dsimp only at h
          split at h
          next =>
            split at h
            next =>
              split at h
              next =>
                split at h
                next =>
                  split at h
                  next =>
                    cases h1 : checkedAdd64 ag.skills_published 1 with
                    | none => rw [h1] at h; simp at h
                    | some sp =>
                      rw [h1] at h
                      dsimp only at h
                      cases h2 : checkedAdd64 m.total_skills 1 with
                      | none => rw [h2] at h; simp at h
                      | some ts =>
                        rw [h2] at h
                        dsimp only at h
                        simp only [Except.ok.injEq] at h
                        subst h
                        exact ⟨rfl, rfl, _, ag, _, rfl, rfl, rfl, rfl, rfl, rfl⟩
                  next => simp at h
                next => simp at h
              next => simp at h
            next => simp at h
          next => simp at h
    next => simp at h

theorem purchase_skill_ok {b bta sta tta : Nat} {sid2 : String} {t : Int}
    {s s' : SysState} {tr : List Transfer}
    (h : purchase_skill b sid2 bta sta tta t s = .ok (s', tr)) :
    ∃ m sk ag sk' ag', s.marketplace = some m ∧
      lookupA s.skills sid2 = some sk ∧ sk.is_active = true ∧
      lookupA s.agents sk.publisher = some ag ∧
      s'.skills = setA s.skills sid2 sk' ∧
      sk'.is_active = sk.is_active ∧ sk'.avg_rating = sk.avg_rating ∧
      s'.agents = setA s.agents sk.publisher ag' ∧
      ag'.reputation_score = ag.reputation_score := by
  unfold purchase_skill at h
  cases hM : s.marketplace with
  | none => rw [hM] at h; simp at h
  | some m =>
    rw [hM] at h
    dsimp only at h
    cases hS : lookupA s.skills sid2 with
    | none => rw [hS] at h; simp at h
    | some sk =>
      rw [hS] at h
      dsimp only at h
      split at h
      next hact =>
        cases hA : lookupA s.agents sk.publisher with
        | none => rw [hA] at h; simp at h
        | some ag =>
          rw [hA] at h
          dsimp only at h
          cases hP : lookupA s.purchases (b, sid2) with
          | some x => rw [hP] at h; simp at h
          | none =>
            rw [hP] at h
            dsimp only at h
            cases hfs : purchaseFeeSplit sk.price_usdc m.fee_bps with
            | none => rw [hfs] at h; simp at h
            | some pr2 =>
              obtain ⟨fee, sa⟩ := pr2
              rw [hfs] at h
              dsimp only at h
              cases h1 : checkedAdd64 sk.total_purchases 1 with
              | none => rw [h1] at h; simp at h
              | some stp =>
                rw [h1] at h
                dsimp only at h
                cases h2 : checkedAdd64 sk.total_revenue sk.price_usdc with
                | none => rw [h2] at h; simp at h
                | some str =>
                  rw [h2] at h
                  dsimp only at h
                  cases h3 : checkedAdd64 ag.skills_sold 1 with
                  | none => rw [h3] at h; simp at h
                  | some sss =>
                    rw [h3] at h
                    dsimp only at h
                    cases h4 : checkedAdd64 ag.total_earnings sa with
                    | none => rw [h4] at h; simp at h
                    | some ste =>
                      rw [h4] at h
                      dsimp only at h
                      cases h5 : checkedAdd64 m.total_purchases 1 with
                      | none => rw [h5] at h; simp at h
                      | some mtp =>
                        rw [h5] at h
                        dsimp only at h
                        cases h6 : checkedAdd64 m.total_volume_usdc
                            sk.price_usdc with
                        | none => rw [h6] at h; simp at h
                        | some mtv =>
                          rw [h6] at h
                          dsimp only at h
                          simp only [Except.ok.injEq, Prod.mk.injEq] at h
                          obtain ⟨hSt, -⟩ := h
                          subst hSt
                          exact ⟨m, sk, ag, _, _, rfl, rfl, hact, hA, rfl,
                            rfl, rfl, rfl, rfl⟩
      next => simp at h

theorem rate_skill_ok {b r : Nat} {sid2 : String} {s s' : SysState}
    (h : rate_skill b sid2 r s = .ok s') :
    ∃ pur sk ag sk' ag',
      lookupA s.purchases (b, sid2) = some pur ∧
      lookupA s.skills sid2 = some sk ∧
      lookupA s.agents sk.publisher = some ag ∧ 1 ≤ r ∧ r ≤ 5 ∧
      s'.skills = setA s.skills sid2 sk' ∧
      sk'.is_active = sk.is_active ∧
      sk'.avg_rating = (sk.avg_rating * sk.total_ratings + r) % u64Mod /
        (sk.total_ratings + 1) % 256 ∧
      s'.agents = setA s.agents sk.publisher ag' ∧
      ag'.reputation_score =
        (ag.reputation_score * ag.total_ratings + r) % u64Mod /
          (ag.total_ratings + 1) % 256 := by
  unfold rate_skill at h
  cases hP : lookupA s.purchases (b, sid2) with
  | none => rw [hP] at h; simp at h
  | some pur =>
    rw [hP] at h
    dsimp only at h
    split at h
    next =>
      cases hS : lookupA s.skills sid2 with
      | none => rw [hS] at h; simp at h
      | some sk =>
        rw [hS] at h
        dsimp only at h
        cases hA : lookupA s.agents sk.publisher with
        | none => rw [hA] at h; simp at h
        | some ag =>
          rw [hA] at h
          dsimp only at h
          split at h
          next hr =>
            split at h
            next =>
              cases h1 : checkedAdd64 sk.total_ratings 1 with
              | none => rw [h1] at h; simp at h
              | some str =>
                rw [h1] at h
                dsimp only at h
                obtain ⟨hstr, -⟩ := checkedAdd64_some h1
                cases h2 : checkedAdd64 ag.total_ratings 1 with
                | none => rw [h2] at h; simp at h
                | some atr =>
                  rw [h2] at h
                  dsimp only at h
                  obtain ⟨hatr, -⟩ := checkedAdd64_some h2
                  simp only [Except.ok.injEq] at h
                  subst h
                  refine ⟨pur, sk, ag, _, _, rfl, rfl, hA, hr.1, hr.2, rfl,
                    rfl, ?_, rfl, ?_⟩
                  · dsimp only
                    rw [hstr]
                  · dsimp only
                    rw [hatr]
            next => simp at h
          next => simp at h
    next => simp at h

theorem update_skill_price_ok {c np : Nat} {sid2 : String} {t : Int}
    {s s' : SysState} (h : update_skill_price c sid2 np t s = .ok s') :
    ∃ sk, lookupA s.skills sid2 = some sk ∧
      s'.skills = setA s.skills sid2
        { sk with price_usdc := np, updated_at := t } ∧
      s'.agents = s.agents := by
  unfold update_skill_price at h
  cases hS : lookupA s.skills sid2 with
  | none => rw [hS] at h; simp at h
  | some sk =>
    rw [hS] at h
    dsimp only at h
    split at h
    next =>
      split at h
      next =>
        simp only [Except.ok.injEq] at h
        subst h
        exact ⟨sk, rfl, rfl, rfl⟩
      next => simp at h
    next => simp at h

theorem deactivate_skill_ok {c : Nat} {sid2 : String} {t : Int}
    {s s' : SysState} (h : deactivate_skill c sid2 t s = .ok s') :
    ∃ sk, lookupA s.skills sid2 = some sk ∧
      s'.skills = setA s.skills sid2
        { sk with is_active := false, updated_at := t } ∧
      s'.agents = s.agents := by
  unfold deactivate_skill at h
  cases hS : lookupA s.skills sid2 with
  | none => rw [hS] at h; simp at h
  | some sk =>
    rw [hS] at h
    dsimp only at h
    split at h
    next =>
      simp only [Except.ok.injEq] at h
      subst h
      exact ⟨sk, rfl, rfl, rfl⟩
    next => simp at h

/-- A `setA` on the skill map keeps an inactive skill inactive, provided the
written value is itself inactive whenever it lands on the observed key. -/
theorem inactive_preserved_setA {l : List (String × Skill)}
    {sid sid2 : String} {sk skv : Skill}
    (hsk : lookupA l sid = some sk) (hia : sk.is_active = false)
    (hact : sid = sid2 → skv.is_active = false) :
    (lookupA (setA l sid2 skv) sid).map Skill.is_active = some false := by
  by_cases he : sid = sid2
  · subst he
    rw [lookupA_setA_self _ hsk]
    simp [hact rfl]
  · rw [lookupA_setA_ne _ he, hsk]
    simp [hia]

/-- C8: `is_active = false` is absorbing: under each of the seven
transitions, a skill stored as inactive is still stored and still inactive
after any successful run (`register_skill` can only create a fresh
`skill_id`, every mutation of an existing skill preserves or re-writes
`is_active = false`, and no transition sets it back to true); moreover
`deactivate_skill` on an already-inactive skill succeeds, leaving
`is_active` false. -/
theorem claim_C8 :
    (∀ (a fb : Nat) (s s' : SysState) (sid : String) (sk : Skill),
      initMarketplace a fb s = .ok s' → lookupA s.skills sid = some sk →
      sk.is_active = false →
      (lookupA s'.skills sid).map Skill.is_active = some false) ∧
    (∀ (o : Nat) (nm uri : String) (t : Int) (s s' : SysState)
      (sid : String) (sk : Skill),
      register_agent o nm uri t s = .ok s' → lookupA s.skills sid = some sk →
      sk.is_active = false →
      (lookupA s'.skills sid).map Skill.is_active = some false) ∧
    (∀ (p : Nat) (sid2 nm d : String) (ec : Nat) (at0 : AuthType) (pr : Nat)
      (uri : String) (t : Int) (s s' : SysState) (sid : String) (sk : Skill),
      register_skill p sid2 nm d ec at0 pr uri t s = .ok s' →
      lookupA s.skills sid = some sk → sk.is_active = false →
      (lookupA s'.skills sid).map Skill.is_active = some false) ∧
    (∀ (b bta sta tta : Nat) (sid2 : String) (t : Int) (s s' : SysState)
      (tr : List Transfer) (sid : String) (sk : Skill),
      purchase_skill b sid2 bta sta tta t s = .ok (s', tr) →
      lookupA s.skills sid = some sk → sk.is_active = false →
      (lookupA s'.skills sid).map Skill.is_active = some false) ∧
    (∀ (b r : Nat) (sid2 : String) (s s' : SysState) (sid : String)
      (sk : Skill),
      rate_skill b sid2 r s = .ok s' → lookupA s.skills sid = some sk →
      sk.is_active = false →
      (lookupA s'.skills sid).map Skill.is_active = some false) ∧
    (∀ (c np : Nat) (sid2 : String) (t : Int) (s s' : SysState)
      (sid : String) (sk : Skill),
      update_skill_price c sid2 np t s = .ok s' →
      lookupA s.skills sid = some sk → sk.is_active = false →
      (lookupA s'.skills sid).map Skill.is_active = some false) ∧
    (∀ (c : Nat) (sid2 : String) (t : Int) (s s' : SysState) (sid : String)
      (sk : Skill),
      deactivate_skill c sid2 t s = .ok s' →
      lookupA s.skills sid = some sk → sk.is_active = false →
      (lookupA s'.skills sid).map Skill.is_active = some false) ∧
    (∀ (s : SysState) (sid : String) (sk : Skill) (t : Int),
      lookupA s.skills sid = some sk → sk.is_active = false →
      deactivate_skill sk.publisher sid t s =
        .ok { s with skills := setA s.skills sid (
          { sk with is_active := false, updated_at := t }) }) := by
  refine ⟨?_, ?_, ?_, ?_, ?_, ?_, ?_, ?_⟩
  · intro a fb s s' sid sk h hsk0 hia
    obtain ⟨hsk', -⟩ := initMarketplace_ok h
    rw [hsk', hsk0]
    simp [hia]
  · intro o nm uri t s s' sid sk h hsk0 hia
    obtain ⟨hsk', -, -⟩ := register_agent_ok h
    rw [hsk', hsk0]
    simp [hia]
  · intro p sid2 nm d ec at0 pr uri t s s' sid sk h hsk0 hia
    obtain ⟨hnone, -, sk0, ag, ag', -, hskills, -, -, -, -⟩ :=
      register_skill_ok h
    have hne : sid2 ≠ sid := by
      intro he
      rw [he, hsk0] at hnone
      cases hnone
    rw [hskills, lookupA_cons, if_neg hne, hsk0]
    simp [hia]
  · intro b bta sta tta sid2 t s s' tr sid sk h hsk0 hia
    obtain ⟨m, sk2, ag, sk2', ag', -, hS2, hact2, -, hskills, -, -, -, -⟩ :=
      purchase_skill_ok h
    rw [hskills]
    apply inactive_preserved_setA hsk0 hia
    intro he
    subst he
    rw [hsk0] at hS2
    obtain rfl := Option.some.inj hS2
    exact absurd hact2 (by simp [hia])
  · intro b r sid2 s s' sid sk h hsk0 hia
    obtain ⟨pur, sk2, ag, sk2', ag', -, hS2, -, -, -, hskills, hact', -,
      -, -⟩ := rate_skill_ok h
    rw [hskills]
    apply inactive_preserved_setA hsk0 hia
    intro he
    subst he
    rw [hsk0] at hS2
    obtain rfl := Option.some.inj hS2
    rw [hact']
    exact hia
  · intro c np sid2 t s s' sid sk h hsk0 hia
    obtain ⟨sk2, hS2, hskills, -⟩ := update_skill_price_ok h
    rw [hskills]
    apply inactive_preserved_setA hsk0 hia
    intro he
    subst he
    rw [hsk0] at hS2
    obtain rfl := Option.some.inj hS2
    exact hia
  · intro c sid2 t s s' sid sk h hsk0 hia
    obtain ⟨sk2, hS2, hskills, -⟩ := deactivate_skill_ok h
    rw [hskills]
    exact inactive_preserved_setA hsk0 hia (fun _ => rfl)
  · intro s sid sk t hsk0 hia
    simp [deactivate_skill, hsk0]

/-- Witness for C8: double-deactivation on the `demoOff` fixture (whose
skill is already inactive) succeeds, leaving `is_active` false. -/
theorem claim_C8_witness :
    deactivate_skill (skillAt demoOff "sk").publisher "sk" 2 demoOff =
      .ok { demoOff with skills := setA demoOff.skills "sk" (
        { skillAt demoOff "sk" with is_active := false, updated_at := 2 }) } :=
  claim_C8.2.2.2.2.2.2.2 demoOff "sk" (skillAt demoOff "sk") 2 rfl rfl

/-! ### Reachability and the rating-range invariant -/

/-- States reachable from the empty store by the program's transitions, with
each wire argument bounded by its Rust type (`fee_bps`, `endpoint_count` are
`u16`, prices are `u64`, ratings are `u8`). -/
inductive Reachable : SysState → Prop where
  | init : Reachable SysState.empty
  | initM {s s' : SysState} (a fb : Nat) : Reachable s → fb < 65536 →
      initMarketplace a fb s = .ok s' → Reachable s'
  | regAgent {s s' : SysState} (o : Nat) (nm uri : String) (t : Int) :
      Reachable s → register_agent o nm uri t s = .ok s' → Reachable s'
  | regSkill {s s' : SysState} (p : Nat) (sid nm d : String) (ec : Nat)
      (at0 : AuthType) (pr : Nat) (uri : String) (t : Int) : Reachable s →
      ec < 65536 → pr < u64Mod →
      register_skill p sid nm d ec at0 pr uri t s = .ok s' → Reachable s'
  | buy {s s' : SysState} {tr : List Transfer} (b bta sta tta : Nat)
      (sid : String) (t : Int) : Reachable s →
      purchase_skill b sid bta sta tta t s = .ok (s', tr) → Reachable s'
  | rate {s s' : SysState} (b r : Nat) (sid : String) : Reachable s →
      r < 256 → rate_skill b sid r s = .ok s' → Reachable s'
  | setPrice {s s' : SysState} (c np : Nat) (sid : String) (t : Int) :
      Reachable s → np < u64Mod →
      update_skill_price c sid np t s = .ok s' → Reachable s'
  | drop {s s' : SysState} (c : Nat) (sid : String) (t : Int) :
      Reachable s → deactivate_skill c sid t s = .ok s' → Reachable s'

/-- The 0..5 range check on every stored average: every skill's
`avg_rating` and every agent's `reputation_score` is at most 5. -/
def checkInv (s : SysState) : Bool :=
  s.skills.all (fun q => q.2.avg_rating ≤ 5) &&
  s.agents.all (fun q => q.2.reputation_score ≤ 5)

/-- Propositional form of `checkInv`. -/
def InvP (s : SysState) : Prop :=
  (∀ q ∈ s.skills, q.2.avg_rating ≤ 5) ∧
  (∀ q ∈ s.agents, q.2.reputation_score ≤ 5)

/-- The updated average written by `rate_skill` stays at most 5 whenever the
previous average and the rating are: even when the wrapping `u64` product
wraps, the wrapped total is at most the exact total
`avg * count + r ≤ 5 * (count + 1)`, so the quotient is at most 5 and the
`as u8` cast is the identity on it. -/
theorem wrapped_avg_le (avg c r : Nat) (havg : avg ≤ 5) (hr : r ≤ 5) :
    (avg * c + r) % u64Mod / (c + 1) % 256 ≤ 5 := by
  have hmc : avg * c ≤ 5 * c := Nat.mul_le_mul_right _ havg
  have h2 : (avg * c + r) % u64Mod ≤ 5 * (c + 1) := by
    have h1 : (avg * c + r) % u64Mod ≤ avg * c + r := Nat.mod_le _ _
    omega
  exact le_trans (Nat.mod_le _ _) (div_le_of_le_mul_succ h2)

/-- Every reachable state satisfies the 0..5 range invariant. -/
theorem reachable_invP : ∀ s : SysState, Reachable s → InvP s := by
  intro s h
  induction h with
  | init =>
    exact ⟨fun q hq => by simp [SysState.empty] at hq,
      fun q hq => by simp [SysState.empty] at hq⟩
  | initM a fb h1 h2 h3 ih =>
    obtain ⟨hsk, hag⟩ := initMarketplace_ok h3
    exact ⟨by rw [hsk]; exact ih.1, by rw [hag]; exact ih.2⟩
  | regAgent o nm uri t h1 h2 ih =>
    obtain ⟨hsk, -, a0, hag, hrep⟩ := register_agent_ok h2
    refine ⟨by rw [hsk]; exact ih.1, ?_⟩
    rw [hag]
    intro q hq
    rcases List.mem_cons.mp hq with he | hmem
    · subst he
      simp [hrep]
    · exact ih.2 q hmem
  | regSkill p sid nm d ec at0 pr uri t h1 h2 h3 h4 ih =>
    obtain ⟨-, -, sk0, ag, ag', hA, hskills, havg0, -, hagents, hrep'⟩ :=
      register_skill_ok h4
    constructor
    · rw [hskills]
      intro q hq
      rcases List.mem_cons.mp hq with he | hmem
      · subst he
        simp [havg0]
      · exact ih.1 q hmem
    · rw [hagents]
      intro q hq
      rcases mem_setA hq with he | hmem
      · subst he
        show ag'.reputation_score ≤ 5
        rw [hrep']
        exact ih.2 (p, ag) (lookupA_mem hA)
      · exact ih.2 q hmem
  | buy b bta sta tta sid t h1 h2 ih =>
    obtain ⟨m, sk2, ag, sk2', ag', -, hS, -, hA, hskills, -, havg',
      hagents, hrep'⟩ := purchase_skill_ok h2
    constructor
    · rw [hskills]
      intro q hq
      rcases mem_setA hq with he | hmem
      · subst he
        show sk2'.avg_rating ≤ 5
        rw [havg']
        exact ih.1 (sid, sk2) (lookupA_mem hS)
      · exact ih.1 q hmem
    · rw [hagents]
      intro q hq
      rcases mem_setA hq with he | hmem
      · subst he
        show ag'.reputation_score ≤ 5
        rw [hrep']
        exact ih.2 (sk2.publisher, ag) (lookupA_mem hA)
      · exact ih.2 q hmem
  | rate b r sid h1 h2 h3 ih =>
    obtain ⟨pur, sk2, ag, sk2', ag', -, hS, hA, hr1, hr5, hskills, -,
      havg', hagents, hrep'⟩ := rate_skill_ok h3
    constructor
    · rw [hskills]
      intro q hq
      rcases mem_setA hq with he | hmem
      · subst he
        show sk2'.avg_rating ≤ 5
        rw [havg']
        exact wrapped_avg_le _ _ _ (ih.1 (sid, sk2) (lookupA_mem hS)) hr5
      · exact ih.1 q hmem
    · rw [hagents]
      intro q hq
      rcases mem_setA hq with he | hmem
      · subst he
        show ag'.reputation_score ≤ 5
        rw [hrep']
        exact wrapped_avg_le _ _ _
          (ih.2 (sk2.publisher, ag) (lookupA_mem hA)) hr5
      · exact ih.2 q hmem
  | setPrice c np sid t h1 h2 h3 ih =>
    obtain ⟨sk2, hS, hskills, hagents⟩ := update_skill_price_ok h3
    constructor
    · rw [hskills]
      intro q hq
      rcases mem_setA hq with he | hmem
      · subst he
        exact ih.1 (sid, sk2) (lookupA_mem hS)
      · exact ih.1 q hmem
    · rw [hagents]
      exact ih.2
  | drop c sid t h1 h2 ih =>
    obtain ⟨sk2, hS, hskills, hagents⟩ := deactivate_skill_ok h2
    constructor
    · rw [hskills]
      intro q hq
      rcases mem_setA hq with he | hmem
      · subst he
        exact ih.1 (sid, sk2) (lookupA_mem hS)
      · exact ih.1 q hmem
    · rw [hagents]
      exact ih.2

/-- Fixture: buyer 4 has also purchased "sk" (after `demoBought3`). -/
def demoBought4 : SysState :=
  okOr ((purchase_skill 4 "sk" 100 101 102 0 demoBought3).map Prod.fst)

/-- Fixture: ratings 1, 2, 5, 5 folded in by buyers 1-4. -/
def driftR1 : SysState := okOr (rate_skill 1 "sk" 1 demoBought4)

/-- Second drift step. -/
def driftR2 : SysState := okOr (rate_skill 2 "sk" 2 driftR1)

/-- Third drift step. -/
def driftR3 : SysState := okOr (rate_skill 3 "sk" 5 driftR2)

/-- Fourth drift step. -/
def driftR4 : SysState := okOr (rate_skill 4 "sk" 5 driftR3)

/-- Counterexample for C9: the state after ratings 1, 2, 5, 5 (entered via
`rate_skill` by four distinct buyers, all through the specified transitions,
so the state is `Reachable`) stores `avg_rating = 2` and
`reputation_score = 2`, while the floor of the true sum over the count is
`(1 + 2 + 5 + 5) / 4 = 3`: the running average is lossy, so the stored
value is not "the floor of the sum of ratings received divided by the count
of ratings" that the claim asserts. -/
theorem claim_C9_counterexample :
    Reachable driftR4 ∧
    skillRatingStats (skillAt driftR4 "sk") = (2, 4) ∧
    agentRatingStats (agentAt driftR4 7) = (2, 4) ∧
    (1 + 2 + 5 + 5) / 4 = 3 ∧ (2 : Nat) ≠ 3 := by
  have r1 : Reachable demoMkt := .initM 0 250 .init (by decide) rfl
  have r2 : Reachable demoAgent := .regAgent 7 "p" "u" 0 r1 rfl
  have r3 : Reachable demoSkill :=
    .regSkill 7 "sk" "n" "d" 1 AuthType.None 1000000 "u" 0 r2 (by decide)
      (by decide) rfl
  have r4 : Reachable demoBought := .buy 1 100 101 102 "sk" 0 r3 rfl
  have r5 : Reachable demoBought2 := .buy 2 100 101 102 "sk" 0 r4 rfl
  have r6 : Reachable demoBought3 := .buy 3 100 101 102 "sk" 0 r5 rfl
  have r7 : Reachable demoBought4 := .buy 4 100 101 102 "sk" 0 r6 rfl
  have r8 : Reachable driftR1 := .rate 1 1 "sk" r7 (by decide) rfl
  have r9 : Reachable driftR2 := .rate 2 2 "sk" r8 (by decide) rfl
  have r10 : Reachable driftR3 := .rate 3 5 "sk" r9 (by decide) rfl
  have r11 : Reachable driftR4 := .rate 4 5 "sk" r10 (by decide) rfl
  exact ⟨r11, by decide, by decide, by decide, by decide⟩

/-- C9 (amended): in every reachable state, every stored `avg_rating` and
`reputation_score` lies in 0..5 (hence the `u64`-to-`u8` casts in
`rate_skill` never truncate on reachable states); but each equals the floor
of the running recurrence, which — the stored average being rounded before
being re-multiplied — can drift below the floor of the true sum of ratings
divided by their count. -/
theorem claim_C9_amended (s : SysState) (h : Reachable s) :
    checkInv s = true := by
  obtain ⟨h1, h2⟩ := reachable_invP s h
  unfold checkInv
  rw [Bool.and_eq_true, List.all_eq_true, List.all_eq_true]
  exact ⟨fun q hq => decide_eq_true (h1 q hq),
    fun q hq => decide_eq_true (h2 q hq)⟩

/-- Witness for C9 (amended): the rated fixture state is reachable and
passes the range check. -/
theorem claim_C9_witness : checkInv demoRated = true :=
  claim_C9_amended demoRated
    (.rate 1 5 "sk"
      (.buy 1 100 101 102 "sk" 0
        (.regSkill 7 "sk" "n" "d" 1 AuthType.None 1000000 "u" 0
          (.regAgent 7 "p" "u" 0
            (.initM 0 250 .init (by decide) rfl) rfl)
          (by decide) (by decide) rfl)
        rfl)
      (by decide) rfl)

/-- C10: `update_skill_price` has no activity precondition: on an inactive
skill, the publisher's price update with a positive price still succeeds,
rewriting exactly `price_usdc` and `updated_at` of that skill's record and
leaving every other field, every other skill entry, and the marketplace,
agent, and purchase maps unchanged (the result is stated as a full-state
equality). -/
theorem claim_C10 (s : SysState) (sid : String) (sk : Skill)
    (caller np : Nat) (t : Int)
    (hsk : lookupA s.skills sid = some sk) (hia : sk.is_active = false)
    (hpub : sk.publisher = caller) (hnp : 0 < np) :
    update_skill_price caller sid np t s =
      .ok { s with skills := setA s.skills sid (
        { sk with price_usdc := np, updated_at := t }) } := by
  simp [update_skill_price, hsk, hpub, hnp]

/-- Witness for C10: updating the price of the deactivated skill of the
`demoOff` fixture succeeds and rewrites exactly `price_usdc` and
`updated_at` of its record. -/
theorem claim_C10_witness :
    update_skill_price 7 "sk" 42 9 demoOff =
      .ok { demoOff with skills := setA demoOff.skills "sk" (
        { skillAt demoOff "sk" with price_usdc := 42, updated_at := 9 }) } :=
  claim_C10 demoOff "sk" (skillAt demoOff "sk") 7 42 9 rfl rfl rfl
    (by decide)

end SkillRegistry
